import Mathlib

/-!
Verification development for the Enhanced Twitter Media Analyzer
(repository BookmarkletIncludes, file modelled: the analyzer class with
`extractVideoData`, `extractImageData`, `detectMedia`, `infiniteScroll`,
`checkCacheSize`, `parseEngagementCount`, `exportDataAsJson`,
`importJsonData`, `generateUniqueId`, `start`/`stop`/`startAnalysis`).

The JavaScript is shallowly embedded: `Map` objects become association
lists with JS `Map` semantics (`set` on a present key updates in place,
on an absent key appends; `values()` is insertion order), JS numbers that
only ever hold integers become `Nat`, fractional JS numbers become `Rat`
(decimal literals are represented exactly), DOM-dependent inputs
(candidate containers, clock reads) become explicit parameters, and a JS
`throw` surfaces as `Except`.
-/

namespace BMI

/-- A cached media record: the fields of the objects built in
`extractVideoData` / `extractImageData` that the cache, eviction and
codec logic reads.  Provenance metadata (username, tweet
text, engagement numbers, ...) is carried by the records but never
inspected by those code paths, so it is elided here. -/
structure MediaRec where
  id : String
  url : String
  fullUrl : String
  thumbnailUrl : String
  durationSeconds : ℚ
  discoveredAtScroll : ℕ
  timestamp : ℕ
deriving DecidableEq, Repr

/-- Association-list model of a JS `Map` from string keys to records. -/
abbrev CacheMap := List (String × MediaRec)

/-- JS `map.has(k)`. -/
def mapHas (m : CacheMap) (k : String) : Bool :=
  m.any (fun p => p.1 == k)

/-- JS `map.set(k, v)`: update in place when the key is present,
append otherwise. -/
def mapSet (m : CacheMap) (k : String) (v : MediaRec) : CacheMap :=
  if mapHas m k then
    m.map (fun p => if p.1 == k then (k, v) else p)
  else
    m ++ [(k, v)]

/-- JS `Array.from(map.values())` (insertion order). -/
def mapValues (m : CacheMap) : List MediaRec :=
  m.map (fun p => p.2)

/-- JS `map.size` (the association lists built by this development keep
keys unique, so the length is the key count). -/
def mapSize (m : CacheMap) : ℕ :=
  m.length

/-- The duplicate test guarding cache insertion in `extractVideoData`
(`this.state.videoCache.has(videoId) ||
Array.from(this.state.videoCache.values()).some(v => v.url === videoSrc)`)
and identically in `extractImageData` for the image cache. -/
def isDuplicate (m : CacheMap) (r : MediaRec) : Bool :=
  mapHas m r.id || (mapValues m).any (fun v => v.url == r.url)

/-- The extraction-time insertion step shared by `extractVideoData`
(lines 1366-1396) and `extractImageData` (lines 1496-1530): a candidate
record whose id is already cached, or whose url equals a cached url, is
dropped and contributes 0 to the new-item count; otherwise it is
`set` into the cache and contributes 1. -/
def cacheDedupInsert (m : CacheMap) (r : MediaRec) : CacheMap × ℕ :=
  if isDuplicate m r then (m, 0)
  else (mapSet m r.id r, 1)

/-- Folding the extraction-time insertion over a list of candidate
records, as one `detectMedia` pass does container by container. -/
def insertAllRecords (m : CacheMap) (rs : List MediaRec) : CacheMap :=
  rs.foldl (fun c r => (cacheDedupInsert c r).1) m

/-- Sample record used to instantiate the cache theorems. -/
def sampleRecA : MediaRec :=
  { id := "tma_a", url := "https://video.twimg.com/a.mp4",
    fullUrl := "https://twitter.com/u/status/1", thumbnailUrl := "",
    durationSeconds := 30, discoveredAtScroll := 1, timestamp := 0 }

/-- Sample record with a different id but the same url as `sampleRecA`. -/
def sampleRecB : MediaRec :=
  { id := "tma_b", url := "https://video.twimg.com/a.mp4",
    fullUrl := "https://twitter.com/u/status/2", thumbnailUrl := "",
    durationSeconds := 45, discoveredAtScroll := 2, timestamp := 0 }

/-! ### Scroll/stability controller (`infiniteScroll`, lines 918-1034) -/

/-- Configuration fields of `this.config` read by the scroll loop. -/
structure ScrollConfig where
  maxScrollAttempts : ℕ
  stabilityThreshold : ℕ
deriving DecidableEq, Repr

/-- Control state of the scroll loop: the fields of `this.state` that
`scrollStep` reads and writes.  Cache contents are abstracted into the
per-pass net new-record count supplied to `scrollStep`, since the loop
only inspects cache-size deltas. -/
structure ScrollState where
  scrollCount : ℕ
  stabilityCounter : ℕ
  lastMediaDiscoveryScroll : ℕ
  isScrolling : Bool
deriving DecidableEq, Repr

/-- One iteration of `scrollStep` inside `infiniteScroll`, given that the
`detectMedia` call of this pass yields `newMedia` net new cached records
(`newVideosFound + newImagesFound`).  Mirrors the source order: stop if
no longer scrolling, stop if `scrollCount >= maxScrollAttempts`,
otherwise scroll (incrementing `scrollCount`), detect, update the
stability bookkeeping, and stop when
`stabilityCounter >= stabilityThreshold`.  Cache trimming
(`checkCacheSize`) and UI reporting touch no control state and are
elided. -/
def scrollStep (cfg : ScrollConfig) (newMedia : ℕ) (s : ScrollState) :
    ScrollState :=
  if s.isScrolling = false then s
  else if cfg.maxScrollAttempts ≤ s.scrollCount then
    { s with isScrolling := false }
  else
    let s1 := { s with scrollCount := s.scrollCount + 1 }
    let s2 :=
      if 0 < newMedia then
        { s1 with lastMediaDiscoveryScroll := s1.scrollCount,
                  stabilityCounter := 0 }
      else
        { s1 with stabilityCounter := s1.stabilityCounter + 1 }
    if cfg.stabilityThreshold ≤ s2.stabilityCounter then
      { s2 with isScrolling := false }
    else s2

/-- Running the scroll loop over a sequence of per-pass new-record
counts. -/
def runScroll (cfg : ScrollConfig) (s : ScrollState) (ds : List ℕ) :
    ScrollState :=
  ds.foldl (fun t d => scrollStep cfg d t) s

/-! ### Session state, `stop` (lines 673-678), `start` (665-668),
`startAnalysis` (842-912) and the loop entry of `infiniteScroll`
(920-922) -/

/-- The fields of `this.state` (plus the `isAnalyzing` flag) that the
start/stop control flow and the import/export codec read and write. -/
structure AnalyzerState where
  videoCache : CacheMap
  imageCache : CacheMap
  scrollCount : ℕ
  stabilityCounter : ℕ
  lastMediaDiscoveryScroll : ℕ
  newlyDiscoveredVideos : ℕ
  newlyDiscoveredImages : ℕ
  isScrolling : Bool
  isProcessing : Bool
  isAnalyzing : Bool
deriving DecidableEq, Repr

/-- The `stop()` method: clears the three activity flags and touches
nothing else (the status message is UI-only). -/
def stopAnalyzer (st : AnalyzerState) : AnalyzerState :=
  { st with isAnalyzing := false, isScrolling := false, isProcessing := false }

/-- The three assignments at the top of `infiniteScroll` (lines
920-922): `isScrolling = true; scrollCount = 0; stabilityCounter = 0`,
executed on every invocation, resumed or not. -/
def infiniteScrollEnter (st : AnalyzerState) : AnalyzerState :=
  { st with isScrolling := true, scrollCount := 0, stabilityCounter := 0 }

/-- Control-state effect of `startAnalysis` up to entering the scroll
loop.  `onTwitter` is the `isOnTwitter()` environment check; the initial
`detectMedia` call only performs extraction-time insertions, modelled by
the candidate record lists `fv` (videos) and `fi` (images) it resolves
from the page.  UI construction, status messages and timing fields are
elided. -/
def startAnalysisCtl (onTwitter : Bool) (fv fi : List MediaRec)
    (st : AnalyzerState) : AnalyzerState :=
  if st.isProcessing then
    { st with isScrolling := false, isProcessing := false }
  else
    let st1 := { st with isProcessing := true, isScrolling := true }
    if onTwitter = false then
      { st1 with isProcessing := false, isScrolling := false }
    else
      let st2 := { st1 with
        videoCache := insertAllRecords st1.videoCache fv,
        imageCache := insertAllRecords st1.imageCache fi }
      infiniteScrollEnter st2

/-- The `start()` method: sets `isAnalyzing` and calls `startAnalysis`. -/
def startCommand (onTwitter : Bool) (fv fi : List MediaRec)
    (st : AnalyzerState) : AnalyzerState :=
  startAnalysisCtl onTwitter fv fi { st with isAnalyzing := true }

/-- A running mid-session analyzer state used to instantiate the
control-flow theorems. -/
def sampleRunningState : AnalyzerState :=
  { videoCache := [(sampleRecA.id, sampleRecA)], imageCache := [],
    scrollCount := 5, stabilityCounter := 3, lastMediaDiscoveryScroll := 4,
    newlyDiscoveredVideos := 1, newlyDiscoveredImages := 0,
    isScrolling := true, isProcessing := true, isAnalyzing := true }

/-! ### Cache eviction (`checkCacheSize`, lines 612-638) -/

/-- Ordering used by the video-cache trim: the JS comparator
`(a, b) => b[1].durationSeconds - a[1].durationSeconds`, i.e. entry `a`
sorts no later than entry `b` when `b`'s duration is at most `a`'s
(descending by duration). -/
def videoRank (a b : String × MediaRec) : Prop :=
  b.2.durationSeconds ≤ a.2.durationSeconds

/-- Ordering used by the image-cache trim: the JS comparator
`(a, b) => b[1].discoveredAtScroll - a[1].discoveredAtScroll`
(descending by discovery pass, i.e. keep-newest). -/
def imageRank (a b : String × MediaRec) : Prop :=
  b.2.discoveredAtScroll ≤ a.2.discoveredAtScroll

instance : DecidableRel videoRank := fun a b =>
  inferInstanceAs (Decidable (b.2.durationSeconds ≤ a.2.durationSeconds))

instance : DecidableRel imageRank := fun a b =>
  inferInstanceAs (Decidable (b.2.discoveredAtScroll ≤ a.2.discoveredAtScroll))

instance : IsTotal (String × MediaRec) videoRank :=
  ⟨fun a b => le_total b.2.durationSeconds a.2.durationSeconds⟩

instance : IsTotal (String × MediaRec) imageRank :=
  ⟨fun a b => Nat.le_total b.2.discoveredAtScroll a.2.discoveredAtScroll⟩

instance : IsTrans (String × MediaRec) videoRank :=
  ⟨fun _ _ _ hab hbc => le_trans hbc hab⟩

instance : IsTrans (String × MediaRec) imageRank :=
  ⟨fun _ _ _ hab hbc => Nat.le_trans hbc hab⟩

/-- One trim step of `checkCacheSize`: when the entry count exceeds the
limit, sort the entries by the comparator and rebuild the cache from the
first `maxCacheSize` of them (`Array.from(entries).sort(cmp)
.slice(0, max)`); otherwise leave the cache alone.  JS `Array.sort` is a
stable sort, embedded here as `List.insertionSort`, which for a total
transitive comparator produces the unique stable sorted arrangement. -/
def trimCacheBy (r : (String × MediaRec) → (String × MediaRec) → Prop)
    [DecidableRel r] (maxCacheSize : ℕ) (m : CacheMap) : CacheMap :=
  if maxCacheSize < m.length then
    (List.insertionSort r m).take maxCacheSize
  else m

/-- The `checkCacheSize` method: trims the video cache by descending
duration and the image cache by descending discovery pass, each only
when its size exceeds `maxCacheSize`. -/
def checkCacheSize (maxCacheSize : ℕ) (st : AnalyzerState) : AnalyzerState :=
  { st with
    videoCache := trimCacheBy videoRank maxCacheSize st.videoCache,
    imageCache := trimCacheBy imageRank maxCacheSize st.imageCache }

/-- Analyzer state with two cached videos and two cached images, used to
instantiate the eviction theorem over capacity. -/
def sampleOverState : AnalyzerState :=
  { videoCache := [(sampleRecA.id, sampleRecA), (sampleRecB.id, sampleRecB)],
    imageCache := [(sampleRecA.id, sampleRecA), (sampleRecB.id, sampleRecB)],
    scrollCount := 2, stabilityCounter := 0, lastMediaDiscoveryScroll := 2,
    newlyDiscoveredVideos := 2, newlyDiscoveredImages := 2,
    isScrolling := false, isProcessing := false, isAnalyzing := false }

/-! ### Engagement-count parser (`parseEngagementCount`, lines 1697-1724)

Decimal numerals are represented exactly as rationals; on the digit
strings these claims quantify over, JS float64 arithmetic computes the
same rounded integers. -/

/-- Character class kept by the stripping step
`text.replace(/[^0-9KkMmBb.]/g, '')`. -/
def keepCountChar (c : Char) : Bool :=
  c.isDigit || c == 'K' || c == 'k' || c == 'M' || c == 'm' ||
    c == 'B' || c == 'b' || c == '.'

/-- JS `Math.round` (half rounds up toward positive infinity). -/
def jsMathRound (q : ℚ) : ℤ := ⌊q + 1/2⌋

/-- Value of a list of decimal digit characters. -/
def digitsVal (ds : List Char) : ℕ :=
  ds.foldl (fun a c => a * 10 + (c.toNat - 48)) 0

/-- Syntactic part of JS `parseFloat` on the digits-and-dots strings it
receives here: the longest numeric prefix, split into integer digits and
fraction digits; `none` is `NaN` (no digit before the scan stops). -/
def jsParseFloatParts (cs : List Char) : Option (List Char × List Char) :=
  let intPart := cs.takeWhile (fun c => c.isDigit)
  let rest := cs.dropWhile (fun c => c.isDigit)
  let fracPart :=
    match rest with
    | '.' :: t => t.takeWhile (fun c => c.isDigit)
    | _ => []
  if intPart.isEmpty && fracPart.isEmpty then none
  else some (intPart, fracPart)

/-- Numeric value of a parsed integer/fraction digit pair. -/
def floatValOfParts (p : List Char × List Char) : ℚ :=
  (digitsVal p.1 : ℚ) + (digitsVal p.2 : ℚ) / 10 ^ p.2.length

/-- JS `parseFloat` on digits-and-dots strings. -/
def jsParseFloat (cs : List Char) : Option ℚ :=
  (jsParseFloatParts cs).map floatValOfParts

/-- Character test of the multiplier-removal step
`cleanText.replace(/[KMB]/g, '')` (the text is upper-cased first). -/
def noMultChar (c : Char) : Bool :=
  !(c == 'K' || c == 'M' || c == 'B')

/-- The multiplier-removal step itself. -/
def stripMultChars (cs : List Char) : List Char :=
  cs.filter noMultChar

/-- The cleaning step
`text.replace(/[^0-9KkMmBb.]/g, '').toUpperCase()`. -/
def cleanCount (text : String) : List Char :=
  (text.toList.filter keepCountChar).map Char.toUpper

/-- The `parseEngagementCount` method: falsy input yields 0, the input
is stripped to `[0-9KkMmBb.]` and upper-cased, an empty result yields 0,
the multiplier letters are removed and the rest parsed as a float (`NaN`
yields 0), then the first of K, M, B contained anywhere in the cleaned
text selects the multiplier 1e3 / 1e6 / 1e9 and the result is rounded. -/
def parseEngagementCount (text : String) : ℤ :=
  if text = "" then 0
  else
    let clean := cleanCount text
    if clean.length = 0 then 0
    else
      match jsParseFloat (stripMultChars clean) with
      | none => 0
      | some q =>
        if clean.contains 'K' then jsMathRound (q * 1000)
        else if clean.contains 'M' then jsMathRound (q * 1000000)
        else if clean.contains 'B' then jsMathRound (q * 1000000000)
        else jsMathRound q

/-- No character of `cs` is one of the multiplier letters K, M, B. -/
def noMult (cs : List Char) : Prop :=
  ∀ c ∈ cs, noMultChar c = true

/-! ### Identity hasher (`generateUniqueId`, lines 245-259) -/

/-- Wrap an integer to a signed 32-bit value, as the JS bitwise
operators do. -/
def toInt32 (x : ℤ) : ℤ := (x + 2 ^ 31) % 2 ^ 32 - 2 ^ 31

/-- The per-character accumulation
`hash = ((hash << 5) - hash) + charCode; hash = hash & hash` over the
combined string (intermediate float64 arithmetic is exact at these
magnitudes). -/
def jsStringHash (cs : List Char) : ℤ :=
  cs.foldl (fun h c => toInt32 (toInt32 (h * 32) - h + c.toNat)) 0

/-- JS `Math.abs(hash).toString(16)`. -/
def natToHex (n : ℕ) : String := (Nat.toDigits 16 n).asString

/-- The `generateUniqueId` method.  `now` stands for the `Date.now()`
read it mixes into the combined string. -/
def generateUniqueId (url secondaryId : String) (now : ℕ) : String :=
  let combined := url ++ "::" ++ secondaryId ++ "::" ++ toString now
  "tma_" ++ natToHex (jsStringHash combined.toList).natAbs

/-! ### Export/import codec (`exportDataAsJson` lines 2757-2788,
`importJsonData` lines 2887-2994) -/

/-- The `stats` block of an import payload; absent JS fields are
`none` (the code reads them as `x || 0`). -/
structure ImportStats where
  newlyDiscoveredVideos : Option ℕ
  newlyDiscoveredImages : Option ℕ
  scrollCount : Option ℕ
deriving DecidableEq, Repr

/-- A parsed import payload; a missing or null `videos`/`images` field
is `none` (the falsy check `!importData.videos`). -/
structure ImportPayload where
  videos : Option (List MediaRec)
  images : Option (List MediaRec)
  stats : Option ImportStats
deriving DecidableEq, Repr

/-- The result object built by `importJsonData`. -/
structure ImportResult where
  videosAdded : ℕ
  imagesAdded : ℕ
  videosSkipped : ℕ
  imagesSkipped : ℕ
  totalProcessed : ℕ
deriving DecidableEq, Repr

/-- The `if (!item.id) item.id = generateUniqueId(item.url || '',
item.fullUrl || '')` step; `clock i` is the `Date.now()` value of the
`i`-th id-generation call of this import, and the call index advances
only when an id is actually generated. -/
def assignId (clock : ℕ → ℕ) (i : ℕ) (r : MediaRec) : MediaRec × ℕ :=
  if r.id = "" then
    ({ r with id := generateUniqueId r.url r.fullUrl (clock i) }, i + 1)
  else (r, i)

/-- One iteration of the per-record import loop: assign an id if absent,
skip when merging and the id is already cached, otherwise `set` into the
cache.  The accumulator is (cache, added, skipped, id-clock index). -/
def importRecordStep (replace : Bool) (clock : ℕ → ℕ)
    (acc : CacheMap × ℕ × ℕ × ℕ) (r : MediaRec) : CacheMap × ℕ × ℕ × ℕ :=
  let ri := assignId clock acc.2.2.2 r
  if !replace && mapHas acc.1 ri.1.id then
    (acc.1, acc.2.1, acc.2.2.1 + 1, ri.2)
  else
    (mapSet acc.1 ri.1.id ri.1, acc.2.1 + 1, acc.2.2.1, ri.2)

/-- The import loop over one record sequence, starting with id-clock
index `i`. -/
def importRecords (replace : Bool) (clock : ℕ → ℕ) (cache : CacheMap)
    (i : ℕ) (rs : List MediaRec) : CacheMap × ℕ × ℕ × ℕ :=
  rs.foldl (importRecordStep replace clock) (cache, 0, 0, i)

/-- The `if (replace) { videoCache.clear(); imageCache.clear(); }`
step. -/
def clearIfReplace (replace : Bool) (st : AnalyzerState) : AnalyzerState :=
  if replace then { st with videoCache := [], imageCache := [] } else st

/-- The final stats update of `importJsonData`: merge the
newly-discovered counters when merging, overwrite them (and
`scrollCount`) when replacing; absent stats change nothing. -/
def applyImportStats (replace : Bool) (ps : Option ImportStats)
    (st : AnalyzerState) : AnalyzerState :=
  match ps with
  | some stats =>
    if replace then
      { st with
        newlyDiscoveredVideos := stats.newlyDiscoveredVideos.getD 0,
        newlyDiscoveredImages := stats.newlyDiscoveredImages.getD 0,
        scrollCount := stats.scrollCount.getD 0 }
    else
      { st with
        newlyDiscoveredVideos :=
          st.newlyDiscoveredVideos + stats.newlyDiscoveredVideos.getD 0,
        newlyDiscoveredImages :=
          st.newlyDiscoveredImages + stats.newlyDiscoveredImages.getD 0 }
  | none => st

/-- The success path of `importJsonData` once both sequences are
present: clear in replace mode, run the video loop then the image loop
(the id-clock index continues from the video loop), apply the stats
update, and report the added/skipped tallies. -/
def importJsonOk (replace : Bool) (clock : ℕ → ℕ) (vs is : List MediaRec)
    (ps : Option ImportStats) (st : AnalyzerState) :
    AnalyzerState × Except String ImportResult :=
  let st0 := clearIfReplace replace st
  let v := importRecords replace clock st0.videoCache 0 vs
  let im := importRecords replace clock st0.imageCache v.2.2.2 is
  (applyImportStats replace ps
      { st0 with videoCache := v.1, imageCache := im.1 },
   Except.ok
     { videosAdded := v.2.1, imagesAdded := im.2.1,
       videosSkipped := v.2.2.1, imagesSkipped := im.2.2.1,
       totalProcessed := vs.length + is.length })

/-- The `importJsonData` method (after JSON parsing): validates that
both sequences are present — otherwise the operation fails before any
mutation, surfacing the source's error message — and otherwise runs the
success path. -/
def importJsonData (replace : Bool) (clock : ℕ → ℕ)
    (payload : ImportPayload) (st : AnalyzerState) :
    AnalyzerState × Except String ImportResult :=
  match payload.videos, payload.images with
  | some vs, some is => importJsonOk replace clock vs is payload.stats st
  | _, _ =>
    (st, Except.error "Invalid JSON format. Missing videos or images data.")

/-- The stats block of `exportDataAsJson` (the wall-clock `exportDate`
string is elided). -/
structure ExportStats where
  totalVideos : ℕ
  totalImages : ℕ
  totalMedia : ℕ
  scrollCount : ℕ
  newlyDiscoveredVideos : ℕ
  newlyDiscoveredImages : ℕ
deriving DecidableEq, Repr

/-- The export object built by `exportDataAsJson`. -/
structure ExportData where
  videos : List MediaRec
  images : List MediaRec
  stats : ExportStats
deriving DecidableEq, Repr

/-- The `exportDataAsJson` method: a pure structural snapshot of both
caches (`Array.from(cache.values())`) plus session stats. -/
def exportDataAsJson (st : AnalyzerState) : ExportData :=
  { videos := mapValues st.videoCache,
    images := mapValues st.imageCache,
    stats :=
      { totalVideos := (mapValues st.videoCache).length,
        totalImages := (mapValues st.imageCache).length,
        totalMedia := (mapValues st.videoCache).length +
          (mapValues st.imageCache).length,
        scrollCount := st.scrollCount,
        newlyDiscoveredVideos := st.newlyDiscoveredVideos,
        newlyDiscoveredImages := st.newlyDiscoveredImages } }

/-- The analyzer state as constructed, with empty caches and zeroed
counters. -/
def emptyAnalyzerState : AnalyzerState :=
  { videoCache := [], imageCache := [], scrollCount := 0,
    stabilityCounter := 0, lastMediaDiscoveryScroll := 0,
    newlyDiscoveredVideos := 0, newlyDiscoveredImages := 0,
    isScrolling := false, isProcessing := false, isAnalyzing := false }

/-- The id assignments a record sequence receives during one import
pass, together with the final id-clock index: record `r` is given
`generateUniqueId r.url r.fullUrl (clock i)` when its id is empty, and
the index advances only on assignment (this mirrors the import loop,
whose id assignment is independent of the cache contents). -/
def assignRecordIds (clock : ℕ → ℕ) : ℕ → List MediaRec →
    List MediaRec × ℕ
  | i, [] => ([], i)
  | i, r :: rs =>
    let ri := assignId clock i r
    let rest := assignRecordIds clock ri.2 rs
    (ri.1 :: rest.1, rest.2)

/-- Unconditional `map.set` of a record sequence (the replace-mode
loop of the importer, which never skips). -/
def setAll (cache : CacheMap) (rs : List MediaRec) : CacheMap :=
  rs.foldl (fun c r => mapSet c r.id r) cache

/-- Every entry's key is its record's id. -/
def keyInv (m : CacheMap) : Prop := ∀ p ∈ m, p.2.id = p.1

/-! ### Discovery pass error isolation (`detectMedia`, lines 1039-1137,
and the error-tracking object of the constructor, lines 116-127) -/

/-- The error-tracking counters created in the constructor:
`errors = { pwa, api, network, retry: { count, ... } }`.  There is no
`detection` counter among them. -/
structure ErrorCounters where
  pwa : ℕ
  api : ℕ
  network : ℕ
  retryCount : ℕ
deriving DecidableEq, Repr

/-- What processing one tweet container inside `detectMedia` can do:
contribute image and video counts, or throw somewhere in the
per-container work (exclusion checks, selector queries, extraction). -/
inductive ContainerOutcome where
  | ok (newImages newVideos : ℕ)
  | throws (msg : String)
deriving DecidableEq, Repr

/-- The per-container loop of `detectMedia`: each container's work runs
inside its own try/catch, so a throwing container only produces a
warning log and the loop moves on; successful containers add to the
aggregate counts.  The accumulator is
(newVideosCount, newImagesCount, error counters). -/
def detectMediaLoop (errors : ErrorCounters) (cs : List ContainerOutcome) :
    ℕ × ℕ × ErrorCounters :=
  cs.foldl
    (fun acc c =>
      match c with
      | ContainerOutcome.ok ni nv => (acc.1 + nv, acc.2.1 + ni, acc.2.2)
      | ContainerOutcome.throws _ => acc)
    (0, 0, errors)

/-- Video count a container outcome contributes. -/
def okVideos : ContainerOutcome → ℕ
  | ContainerOutcome.ok _ nv => nv
  | ContainerOutcome.throws _ => 0

/-- Image count a container outcome contributes. -/
def okImages : ContainerOutcome → ℕ
  | ContainerOutcome.ok ni _ => ni
  | ContainerOutcome.throws _ => 0

/-! ### Lemmas and claim theorems -/

lemma mapHas_append_single (m : CacheMap) (k : String) (r : MediaRec) :
    mapHas (m ++ [(r.id, r)]) k = (mapHas m k || (r.id == k)) := by
  simp [mapHas, List.any_append]

lemma mapSet_of_not_has (m : CacheMap) (r : MediaRec)
    (h : mapHas m r.id = false) :
    mapSet m r.id r = m ++ [(r.id, r)] := by
  simp [mapSet, h]

lemma cacheDedupInsert_of_dup (m : CacheMap) (r : MediaRec)
    (h : isDuplicate m r = true) :
    cacheDedupInsert m r = (m, 0) := by
  simp [cacheDedupInsert, h]

lemma cacheDedupInsert_of_fresh (m : CacheMap) (r : MediaRec)
    (h : isDuplicate m r = false) :
    cacheDedupInsert m r = (m ++ [(r.id, r)], 1) := by
  have hid : mapHas m r.id = false := by
    have := h
    simp [isDuplicate, Bool.or_eq_false_iff] at this
    exact this.1
  simp [cacheDedupInsert, h, mapSet_of_not_has m r hid]

lemma isDuplicate_after_fresh_self (m : CacheMap) (r : MediaRec) :
    isDuplicate (m ++ [(r.id, r)]) r = true := by
  simp [isDuplicate, mapHas, List.any_append]

/-- Claim C1.  Presenting a record whose id is already a key of the
cache, or whose url is string-equal to the url of a cached record,
yields 0 new items and leaves the cache unchanged; consequently
inserting the same record twice into a cache that holds neither its id
nor its url grows the cache size by exactly 1 in total (the second
attempt is rejected without mutation). -/
theorem claim1_dedup_insert_at_most_once (m : CacheMap) (r : MediaRec) :
    (isDuplicate m r = true → cacheDedupInsert m r = (m, 0)) ∧
    (isDuplicate m r = false →
      mapSize (cacheDedupInsert (cacheDedupInsert m r).1 r).1 = mapSize m + 1 ∧
      (cacheDedupInsert (cacheDedupInsert m r).1 r).2 = 0 ∧
      (cacheDedupInsert (cacheDedupInsert m r).1 r).1 =
        (cacheDedupInsert m r).1) := by
  constructor
  · intro h
    exact cacheDedupInsert_of_dup m r h
  · intro h
    have h1 := cacheDedupInsert_of_fresh m r h
    have hdup : isDuplicate (m ++ [(r.id, r)]) r = true :=
      isDuplicate_after_fresh_self m r
    have h2 : cacheDedupInsert (m ++ [(r.id, r)]) r = (m ++ [(r.id, r)], 0) :=
      cacheDedupInsert_of_dup _ r hdup
    rw [h1]
    simp [h2, mapSize]

/-- Witness for C1 at a concrete record and the empty cache. -/
theorem claim1_dedup_insert_at_most_once_witness :
    isDuplicate [] sampleRecA = false ∧
    mapSize (cacheDedupInsert (cacheDedupInsert [] sampleRecA).1 sampleRecA).1 =
      mapSize ([] : CacheMap) + 1 := by
  have h := claim1_dedup_insert_at_most_once [] sampleRecA
  have hfresh : isDuplicate [] sampleRecA = false := by decide
  exact ⟨hfresh, (h.2 hfresh).1⟩

lemma runScroll_zeros (cfg : ScrollConfig) :
    ∀ (k : ℕ) (s : ScrollState), s.isScrolling = true →
    s.stabilityCounter + k ≤ cfg.stabilityThreshold →
    s.stabilityCounter < cfg.stabilityThreshold →
    s.scrollCount + k ≤ cfg.maxScrollAttempts →
    (runScroll cfg s (List.replicate k 0)).stabilityCounter =
        s.stabilityCounter + k ∧
    (runScroll cfg s (List.replicate k 0)).scrollCount =
        s.scrollCount + k ∧
    (runScroll cfg s (List.replicate k 0)).isScrolling =
        decide (s.stabilityCounter + k < cfg.stabilityThreshold) := by
  intro k
  induction k with
  | zero =>
    intro s hrun _ hlt _
    simp [runScroll, hrun, hlt]
  | succ k ih =>
    intro s hrun hle hlt hmax
    have hstep : scrollStep cfg 0 s =
        if cfg.stabilityThreshold ≤ s.stabilityCounter + 1 then
          { s with scrollCount := s.scrollCount + 1,
                   stabilityCounter := s.stabilityCounter + 1,
                   isScrolling := false }
        else
          { s with scrollCount := s.scrollCount + 1,
                   stabilityCounter := s.stabilityCounter + 1 } := by
      have hsc : ¬ cfg.maxScrollAttempts ≤ s.scrollCount := by omega
      simp [scrollStep, hrun, hsc]
    by_cases hstop : cfg.stabilityThreshold ≤ s.stabilityCounter + 1
    · have hk0 : k = 0 := by omega
      have heq : s.stabilityCounter + 1 = cfg.stabilityThreshold := by omega
      subst hk0
      simp only [List.replicate, runScroll, List.foldl_cons, List.foldl_nil]
      rw [hstep]
      simp [hstop, heq]
    · have hrw : List.replicate (k + 1) 0 = 0 :: List.replicate k 0 := rfl
      have hfold : runScroll cfg s (List.replicate (k + 1) 0) =
          runScroll cfg (scrollStep cfg 0 s) (List.replicate k 0) := by
        simp [runScroll, hrw]
      rw [hfold, hstep]
      simp only [if_neg hstop]
      have h := ih { s with scrollCount := s.scrollCount + 1,
                            stabilityCounter := s.stabilityCounter + 1 }
        (by simp [hrun]) (by simp; omega) (by simp; omega) (by simp; omega)
      simp only [ScrollState.stabilityCounter, ScrollState.scrollCount] at h
      refine ⟨by rw [h.1]; omega, by rw [h.2.1]; omega, ?_⟩
      have harith : s.stabilityCounter + 1 + k = s.stabilityCounter + (k + 1) :=
        by omega
      rw [h.2.2, harith]

/-- Claim C2.  Starting from a running loop state whose stability counter
is 0 (as after loop entry or after any discovering pass), and with the
attempt ceiling not interfering: (a) a pass yielding at least one new
record sets `lastMediaDiscoveryScroll` to the pass number and resets the
stability counter to 0, leaving the loop running; (b) a run of
`k ≤ stabilityThreshold` consecutive passes with 0 new records drives
the counter to exactly `k`, and the loop is still running if and only if
`k < stabilityThreshold`: it stops (content exhausted) at exactly the
pass where the counter reaches the threshold, and at no earlier pass. -/
theorem claim2_stability_termination (cfg : ScrollConfig) (s : ScrollState)
    (k d : ℕ) (hrun : s.isScrolling = true)
    (hzero : s.stabilityCounter = 0)
    (hth : 0 < cfg.stabilityThreshold) :
    (0 < d → s.scrollCount < cfg.maxScrollAttempts →
      (scrollStep cfg d s).stabilityCounter = 0 ∧
      (scrollStep cfg d s).lastMediaDiscoveryScroll = s.scrollCount + 1 ∧
      (scrollStep cfg d s).isScrolling = true) ∧
    (k ≤ cfg.stabilityThreshold → s.scrollCount + k ≤ cfg.maxScrollAttempts →
      (runScroll cfg s (List.replicate k 0)).stabilityCounter = k ∧
      (runScroll cfg s (List.replicate k 0)).scrollCount =
        s.scrollCount + k ∧
      ((runScroll cfg s (List.replicate k 0)).isScrolling = true ↔
        k < cfg.stabilityThreshold)) := by
  constructor
  · intro hd hsc
    have hsc2 : ¬ cfg.maxScrollAttempts ≤ s.scrollCount := by omega
    have hstop : ¬ cfg.stabilityThreshold ≤ 0 := by omega
    simp [scrollStep, hrun, hsc2, hd, hstop]
  · intro hk hmax
    have h := runScroll_zeros cfg k s hrun (by omega) (by omega) hmax
    rw [hzero] at h
    refine ⟨by simpa using h.1, h.2.1, ?_⟩
    rw [h.2.2]
    simp

/-- Witness for C2 at the source defaults (`maxScrollAttempts = 300`,
`stabilityThreshold = 8`) on a fresh loop state, with a discovering pass
and with a full threshold-length run of empty passes. -/
theorem claim2_stability_termination_witness :
    (scrollStep ⟨300, 8⟩ 3 ⟨0, 0, 0, true⟩).stabilityCounter = 0 ∧
    (runScroll ⟨300, 8⟩ ⟨0, 0, 0, true⟩ (List.replicate 8 0)).isScrolling =
      false := by
  have h := claim2_stability_termination ⟨300, 8⟩ ⟨0, 0, 0, true⟩ 8 3
    (by decide) (by decide) (by decide)
  have ha := (h.1 (by decide) (by decide)).1
  have hb := (h.2 (by decide) (by decide)).2.2
  refine ⟨ha, ?_⟩
  by_cases hs : (runScroll ⟨300, 8⟩ ⟨0, 0, 0, true⟩
      (List.replicate 8 0)).isScrolling = true
  · exact absurd (hb.mp hs) (by decide)
  · simpa using hs

lemma mem_cacheDedupInsert (m : CacheMap) (r : MediaRec)
    (p : String × MediaRec) (hp : p ∈ m) : p ∈ (cacheDedupInsert m r).1 := by
  by_cases h : isDuplicate m r = true
  · rw [cacheDedupInsert_of_dup m r h]
    exact hp
  · rw [cacheDedupInsert_of_fresh m r (by simpa using h)]
    exact List.mem_append_left _ hp

lemma mem_insertAllRecords (rs : List MediaRec) :
    ∀ (m : CacheMap) (p : String × MediaRec), p ∈ m →
      p ∈ insertAllRecords m rs := by
  induction rs with
  | nil => intro m p hp; exact hp
  | cons r rs ih =>
    intro m p hp
    exact ih _ p (mem_cacheDedupInsert m r p hp)

/-- Counterexample to claim C7 as stated.  A running session at pass 5
with stability counter 3 is stopped and then restarted: the code
re-enters the scroll loop with `scrollCount = 0` and
`stabilityCounter = 0` (reset by `infiniteScroll`), not with the values
5 and 3 they had at the moment of the stop. -/
theorem claim7_counterexample_counters_reset :
    sampleRunningState.scrollCount = 5 ∧
    sampleRunningState.stabilityCounter = 3 ∧
    (startCommand true [] [] (stopAnalyzer sampleRunningState)).scrollCount
      = 0 ∧
    (startCommand true [] []
      (stopAnalyzer sampleRunningState)).stabilityCounter = 0 := by
  refine ⟨rfl, rfl, ?_, ?_⟩ <;>
    simp [startCommand, startAnalysisCtl, stopAnalyzer, infiniteScrollEnter,
      insertAllRecords, sampleRunningState]

/-- Claim C7 as amended.  After a stop command pauses a session, a
subsequent start command re-enters the running state
(`isProcessing = isScrolling = isAnalyzing = true`) without removing
anything from either cache — every cache entry present at the stop is
still present at re-entry — but the pass counter `scrollCount` and the
`stabilityCounter` are reset to 0 by the scroll-loop entry, whatever
their values were at the stop. -/
theorem claim7_resume_keeps_caches_resets_counters (st : AnalyzerState)
    (fv fi : List MediaRec) :
    ((startCommand true fv fi (stopAnalyzer st)).isProcessing = true) ∧
    ((startCommand true fv fi (stopAnalyzer st)).isScrolling = true) ∧
    ((startCommand true fv fi (stopAnalyzer st)).isAnalyzing = true) ∧
    ((startCommand true fv fi (stopAnalyzer st)).scrollCount = 0) ∧
    ((startCommand true fv fi (stopAnalyzer st)).stabilityCounter = 0) ∧
    (∀ p ∈ st.videoCache,
      p ∈ (startCommand true fv fi (stopAnalyzer st)).videoCache) ∧
    (∀ p ∈ st.imageCache,
      p ∈ (startCommand true fv fi (stopAnalyzer st)).imageCache) := by
  have hv : (startCommand true fv fi (stopAnalyzer st)).videoCache =
      insertAllRecords st.videoCache fv := by
    simp [startCommand, startAnalysisCtl, stopAnalyzer, infiniteScrollEnter]
  have hi : (startCommand true fv fi (stopAnalyzer st)).imageCache =
      insertAllRecords st.imageCache fi := by
    simp [startCommand, startAnalysisCtl, stopAnalyzer, infiniteScrollEnter]
  refine ⟨?_, ?_, ?_, ?_, ?_, ?_, ?_⟩
  · simp [startCommand, startAnalysisCtl, stopAnalyzer, infiniteScrollEnter]
  · simp [startCommand, startAnalysisCtl, stopAnalyzer, infiniteScrollEnter]
  · simp [startCommand, startAnalysisCtl, stopAnalyzer, infiniteScrollEnter]
  · simp [startCommand, startAnalysisCtl, stopAnalyzer, infiniteScrollEnter]
  · simp [startCommand, startAnalysisCtl, stopAnalyzer, infiniteScrollEnter]
  · rw [hv]
    intro p hp
    exact mem_insertAllRecords fv _ p hp
  · rw [hi]
    intro p hp
    exact mem_insertAllRecords fi _ p hp

/-- Witness for the amended C7 at a concrete running state: the cached
video entry survives the stop/start cycle. -/
theorem claim7_resume_keeps_caches_resets_counters_witness :
    (sampleRecA.id, sampleRecA) ∈
      (startCommand true [sampleRecB] []
        (stopAnalyzer sampleRunningState)).videoCache ∧
    (startCommand true [sampleRecB] []
      (stopAnalyzer sampleRunningState)).scrollCount = 0 := by
  have h := claim7_resume_keeps_caches_resets_counters sampleRunningState
    [sampleRecB] []
  refine ⟨h.2.2.2.2.2.1 (sampleRecA.id, sampleRecA) ?_, h.2.2.2.1⟩
  simp [sampleRunningState]

lemma trimCacheBy_length (r : (String × MediaRec) → (String × MediaRec) → Prop)
    [DecidableRel r] (maxCacheSize : ℕ) (m : CacheMap) :
    (trimCacheBy r maxCacheSize m).length = min m.length maxCacheSize := by
  unfold trimCacheBy
  by_cases h : maxCacheSize < m.length
  · rw [if_pos h, List.length_take, (List.perm_insertionSort r m).length_eq]
    omega
  · rw [if_neg h]
    omega

lemma trimCacheBy_id_of_le
    (r : (String × MediaRec) → (String × MediaRec) → Prop) [DecidableRel r]
    (maxCacheSize : ℕ) (m : CacheMap) (h : m.length ≤ maxCacheSize) :
    trimCacheBy r maxCacheSize m = m := by
  unfold trimCacheBy
  rw [if_neg (by omega)]

lemma trimCacheBy_top (r : (String × MediaRec) → (String × MediaRec) → Prop)
    [DecidableRel r] [IsTotal (String × MediaRec) r]
    [IsTrans (String × MediaRec) r] (maxCacheSize : ℕ) (m : CacheMap)
    (h : maxCacheSize < m.length) :
    ∃ dropped, m.Perm (trimCacheBy r maxCacheSize m ++ dropped) ∧
      ∀ p ∈ trimCacheBy r maxCacheSize m, ∀ q ∈ dropped, r p q := by
  refine ⟨(List.insertionSort r m).drop maxCacheSize, ?_, ?_⟩
  · have hperm := (List.perm_insertionSort r m).symm
    unfold trimCacheBy
    rw [if_pos h, List.take_append_drop]
    exact hperm
  · intro p hp q hq
    have hsorted := List.sorted_insertionSort r m
    unfold trimCacheBy at hp
    rw [if_pos h] at hp
    exact hsorted.rel_of_mem_take_of_mem_drop hp hq

/-- Claim C5.  For every state and capacity, `checkCacheSize` keeps
exactly `min(size, maxCacheSize)` entries in each cache; when a cache is
within capacity it is left untouched; when it is over capacity the
retained entries are (a permutation-split of the original entries such
that) every dropped video has duration at most that of every retained
video, and every dropped image has a discovery pass at most that of
every retained image. -/
theorem claim5_eviction_keeps_top_ranked (maxCacheSize : ℕ)
    (st : AnalyzerState) :
    ((checkCacheSize maxCacheSize st).videoCache.length =
        min st.videoCache.length maxCacheSize ∧
     (checkCacheSize maxCacheSize st).imageCache.length =
        min st.imageCache.length maxCacheSize) ∧
    ((st.videoCache.length ≤ maxCacheSize →
        (checkCacheSize maxCacheSize st).videoCache = st.videoCache) ∧
     (st.imageCache.length ≤ maxCacheSize →
        (checkCacheSize maxCacheSize st).imageCache = st.imageCache)) ∧
    ((maxCacheSize < st.videoCache.length →
        ∃ dropped,
          st.videoCache.Perm
            ((checkCacheSize maxCacheSize st).videoCache ++ dropped) ∧
          ∀ p ∈ (checkCacheSize maxCacheSize st).videoCache, ∀ q ∈ dropped,
            q.2.durationSeconds ≤ p.2.durationSeconds) ∧
     (maxCacheSize < st.imageCache.length →
        ∃ dropped,
          st.imageCache.Perm
            ((checkCacheSize maxCacheSize st).imageCache ++ dropped) ∧
          ∀ p ∈ (checkCacheSize maxCacheSize st).imageCache, ∀ q ∈ dropped,
            q.2.discoveredAtScroll ≤ p.2.discoveredAtScroll)) := by
  refine ⟨⟨trimCacheBy_length _ _ _, trimCacheBy_length _ _ _⟩,
    ⟨fun h => trimCacheBy_id_of_le _ _ _ h,
     fun h => trimCacheBy_id_of_le _ _ _ h⟩,
    fun h => trimCacheBy_top videoRank _ _ h,
    fun h => trimCacheBy_top imageRank _ _ h⟩

/-- Witness for C5: with capacity 1 and two cached videos, eviction
keeps exactly one entry and the dropped video is no longer than the
retained one. -/
theorem claim5_eviction_keeps_top_ranked_witness :
    (checkCacheSize 1 sampleOverState).videoCache.length = 1 ∧
    ∃ dropped,
      sampleOverState.videoCache.Perm
        ((checkCacheSize 1 sampleOverState).videoCache ++ dropped) ∧
      ∀ p ∈ (checkCacheSize 1 sampleOverState).videoCache, ∀ q ∈ dropped,
        q.2.durationSeconds ≤ p.2.durationSeconds := by
  have h := claim5_eviction_keeps_top_ranked 1 sampleOverState
  refine ⟨?_, h.2.2.1 (by decide)⟩
  rw [h.1.1]
  decide

lemma jsMathRound_eq (q : ℚ) (z : ℤ) (h1 : (z : ℚ) ≤ q + 1/2)
    (h2 : q + 1/2 < z + 1) : jsMathRound q = z := by
  rw [jsMathRound, Int.floor_eq_iff]
  exact ⟨h1, by exact_mod_cast h2⟩

lemma parseEngagementCount_of_some (s : String) (q : ℚ) (hne : ¬ s = "")
    (hq : jsParseFloat (stripMultChars (cleanCount s)) = some q) :
    parseEngagementCount s =
      (if (cleanCount s).contains 'K' then jsMathRound (q * 1000)
       else if (cleanCount s).contains 'M' then jsMathRound (q * 1000000)
       else if (cleanCount s).contains 'B' then jsMathRound (q * 1000000000)
       else jsMathRound q) := by
  have hlen : ¬ (cleanCount s).length = 0 := by
    intro h0
    rw [List.length_eq_zero] at h0
    rw [h0] at hq
    simp [stripMultChars, jsParseFloat, jsParseFloatParts] at hq
  rw [parseEngagementCount, if_neg hne]
  simp only [if_neg hlen, hq]

lemma parseEngagementCount_of_none (s : String)
    (h : cleanCount s = [] ∨
      jsParseFloat (stripMultChars (cleanCount s)) = none) :
    parseEngagementCount s = 0 := by
  by_cases hne : s = ""
  · rw [parseEngagementCount, if_pos hne]
  rw [parseEngagementCount, if_neg hne]
  rcases h with h | h
  · rw [h]
    simp
  · by_cases hlen : (cleanCount s).length = 0
    · simp only [if_pos hlen]
    · simp only [if_neg hlen, h]

lemma contains_of_clean_append (cs w : List Char) (c : Char)
    (h : cs = w ++ [c]) : cs.contains c = true := by
  subst h
  exact List.elem_iff.mpr (List.mem_append_right _ (by simp))

lemma not_contains_of_noMult (cs : List Char) (hw : noMult cs) (c : Char)
    (hc : noMultChar c = false) : cs.contains c = false := by
  by_cases h : cs.contains c = true
  · have hmem : c ∈ cs := List.elem_iff.mp h
    rw [hw c hmem] at hc
    cases hc
  · simpa using h

lemma stripMultChars_of_suffix (w : List Char) (c : Char)
    (hw : noMult w) (hc : noMultChar c = false) :
    stripMultChars (w ++ [c]) = w := by
  rw [stripMultChars, List.filter_append, List.filter_eq_self.mpr hw]
  simp [List.filter, hc]

lemma not_mem_of_noMult (w : List Char) (hw : noMult w) (d : Char)
    (hd : noMultChar d = false) : d ∉ w := by
  intro hmem
  rw [hw d hmem] at hd
  cases hd

lemma contains_append_single_false (w : List Char) (c d : Char)
    (hne : d ≠ c) (hnm : d ∉ w) : (w ++ [c]).contains d = false := by
  by_cases h : (w ++ [c]).contains d = true
  · have hmem := List.elem_iff.mp h
    rcases List.mem_append.mp hmem with h1 | h1
    · exact absurd h1 hnm
    · simp at h1
      exact absurd h1 hne
  · simpa using h

lemma cleanCount_empty : cleanCount "" = [] := rfl

lemma parseEngagementCount_suffix (s : String) (w : List Char) (q : ℚ)
    (c : Char) (hc : noMultChar c = false) (h : cleanCount s = w ++ [c])
    (hw : noMult w) (hq : jsParseFloat w = some q) :
    parseEngagementCount s =
      (if (w ++ [c]).contains 'K' then jsMathRound (q * 1000)
       else if (w ++ [c]).contains 'M' then jsMathRound (q * 1000000)
       else if (w ++ [c]).contains 'B' then jsMathRound (q * 1000000000)
       else jsMathRound q) := by
  have hne : ¬ s = "" := by
    intro he
    subst he
    rw [cleanCount_empty] at h
    exact (List.append_ne_nil_of_right_ne_nil w (by simp)) h.symm
  have hstrip : jsParseFloat (stripMultChars (cleanCount s)) = some q := by
    rw [h, stripMultChars_of_suffix w c hw hc, hq]
  rw [parseEngagementCount_of_some s q hne hstrip, h]

/-- Claim C9.  The engagement-count parser satisfies the four quoted
equations, and in general: a string whose cleaned form (all characters
stripped except digits, the dot and the letters K/M/B of either case) is
empty, or does not parse as a number once the multiplier letters are
removed, yields 0; a cleaned form that is a parsable numeral followed by
the suffix K, M or B yields that numeral times 1e3, 1e6 or 1e9
respectively, rounded to the nearest integer (halves up); and a cleaned
form with no multiplier letter yields the bare numeral rounded. -/
theorem claim9_parse_count_spec (s : String) (w : List Char) (q : ℚ) :
    parseEngagementCount "1.5K" = 1500 ∧
    parseEngagementCount "2M" = 2000000 ∧
    parseEngagementCount "" = 0 ∧
    parseEngagementCount "42" = 42 ∧
    (cleanCount s = [] → parseEngagementCount s = 0) ∧
    (jsParseFloat (stripMultChars (cleanCount s)) = none →
      parseEngagementCount s = 0) ∧
    (cleanCount s = w ++ ['K'] → noMult w → jsParseFloat w = some q →
      parseEngagementCount s = jsMathRound (q * 1000)) ∧
    (cleanCount s = w ++ ['M'] → noMult w → jsParseFloat w = some q →
      parseEngagementCount s = jsMathRound (q * 1000000)) ∧
    (cleanCount s = w ++ ['B'] → noMult w → jsParseFloat w = some q →
      parseEngagementCount s = jsMathRound (q * 1000000000)) ∧
    (noMult (cleanCount s) →
      jsParseFloat (stripMultChars (cleanCount s)) = some q →
      parseEngagementCount s = jsMathRound q) := by
  refine ⟨?_, ?_, rfl, ?_, fun h => parseEngagementCount_of_none s (Or.inl h),
    fun h => parseEngagementCount_of_none s (Or.inr h), ?_, ?_, ?_, ?_⟩
  · rw [parseEngagementCount_of_some "1.5K" (floatValOfParts (['1'], ['5']))
      (by decide) rfl]
    rw [if_pos (by decide)]
    refine jsMathRound_eq _ 1500 ?_ ?_ <;>
      · rw [show floatValOfParts (['1'], ['5']) =
            ((1 : ℚ) + 5 / 10 ^ (1 : ℕ)) from rfl]
        norm_num
  · rw [parseEngagementCount_of_some "2M" (floatValOfParts (['2'], []))
      (by decide) rfl]
    rw [if_neg (by decide), if_pos (by decide)]
    refine jsMathRound_eq _ 2000000 ?_ ?_ <;>
      · rw [show floatValOfParts (['2'], []) =
            ((2 : ℚ) + 0 / 10 ^ (0 : ℕ)) from rfl]
        norm_num
  · rw [parseEngagementCount_of_some "42" (floatValOfParts (['4', '2'], []))
      (by decide) rfl]
    rw [if_neg (by decide), if_neg (by decide), if_neg (by decide)]
    refine jsMathRound_eq _ 42 ?_ ?_ <;>
      · rw [show floatValOfParts (['4', '2'], []) =
            ((42 : ℚ) + 0 / 10 ^ (0 : ℕ)) from rfl]
        norm_num
  · intro h hw hq
    rw [parseEngagementCount_suffix s w q 'K' (by decide) h hw hq,
      if_pos (contains_of_clean_append _ w 'K' rfl)]
  · intro h hw hq
    have hKfalse : (w ++ ['M']).contains 'K' = false :=
      contains_append_single_false w 'M' 'K' (by decide)
        (not_mem_of_noMult w hw 'K' (by decide))
    rw [parseEngagementCount_suffix s w q 'M' (by decide) h hw hq,
      if_neg (by rw [hKfalse]; simp),
      if_pos (contains_of_clean_append _ w 'M' rfl)]
  · intro h hw hq
    have hKfalse : (w ++ ['B']).contains 'K' = false :=
      contains_append_single_false w 'B' 'K' (by decide)
        (not_mem_of_noMult w hw 'K' (by decide))
    have hMfalse : (w ++ ['B']).contains 'M' = false :=
      contains_append_single_false w 'B' 'M' (by decide)
        (not_mem_of_noMult w hw 'M' (by decide))
    rw [parseEngagementCount_suffix s w q 'B' (by decide) h hw hq,
      if_neg (by rw [hKfalse]; simp), if_neg (by rw [hMfalse]; simp),
      if_pos (contains_of_clean_append _ w 'B' rfl)]
  · intro hw hq
    by_cases hne : s = ""
    · subst hne
      rw [cleanCount_empty] at hq
      simp [stripMultChars, jsParseFloat, jsParseFloatParts] at hq
    rw [parseEngagementCount_of_some s q hne hq,
      if_neg (by rw [not_contains_of_noMult _ hw 'K' (by decide)]; simp),
      if_neg (by rw [not_contains_of_noMult _ hw 'M' (by decide)]; simp),
      if_neg (by rw [not_contains_of_noMult _ hw 'B' (by decide)]; simp)]

/-- Witness for C9 at concrete inputs: a K-suffix numeral and an
unparseable input. -/
theorem claim9_parse_count_spec_witness :
    parseEngagementCount "12K" = jsMathRound (floatValOfParts (['1', '2'], []) * 1000) ∧
    parseEngagementCount "KMB" = 0 := by
  have h := claim9_parse_count_spec "12K" ['1', '2']
    (floatValOfParts (['1', '2'], []))
  have h2 := claim9_parse_count_spec "KMB" [] 0
  refine ⟨h.2.2.2.2.2.2.1 (by decide) ?_ rfl, h2.2.2.2.2.2.1 (by decide)⟩
  intro c hc
  simp at hc
  rcases hc with h | h <;> subst h <;> decide

/-- Claim C10.  The multiplier letter acts wherever it occurs in the
cleaned text, not only as a trailing suffix — e.g. cleaned form `K1.5`
yields 1500 like `1.5K` does — and when several letters occur the
branch order of the source gives K precedence over M and M precedence
over B (`1MK` yields 1000, `1BM` yields 1000000). -/
theorem claim10_multiplier_anywhere (s : String) (q : ℚ) :
    parseEngagementCount "K1.5" = 1500 ∧
    parseEngagementCount "1MK" = 1000 ∧
    parseEngagementCount "1BM" = 1000000 ∧
    (¬ s = "" → (cleanCount s).contains 'K' = true →
      jsParseFloat (stripMultChars (cleanCount s)) = some q →
      parseEngagementCount s = jsMathRound (q * 1000)) ∧
    (¬ s = "" → (cleanCount s).contains 'K' = false →
      (cleanCount s).contains 'M' = true →
      jsParseFloat (stripMultChars (cleanCount s)) = some q →
      parseEngagementCount s = jsMathRound (q * 1000000)) ∧
    (¬ s = "" → (cleanCount s).contains 'K' = false →
      (cleanCount s).contains 'M' = false →
      (cleanCount s).contains 'B' = true →
      jsParseFloat (stripMultChars (cleanCount s)) = some q →
      parseEngagementCount s = jsMathRound (q * 1000000000)) := by
  refine ⟨?_, ?_, ?_, ?_, ?_, ?_⟩
  · rw [parseEngagementCount_of_some "K1.5" (floatValOfParts (['1'], ['5']))
      (by decide) rfl]
    rw [if_pos (by decide)]
    refine jsMathRound_eq _ 1500 ?_ ?_ <;>
      · rw [show floatValOfParts (['1'], ['5']) =
            ((1 : ℚ) + 5 / 10 ^ (1 : ℕ)) from rfl]
        norm_num
  · rw [parseEngagementCount_of_some "1MK" (floatValOfParts (['1'], []))
      (by decide) rfl]
    rw [if_pos (by decide)]
    refine jsMathRound_eq _ 1000 ?_ ?_ <;>
      · rw [show floatValOfParts (['1'], []) =
            ((1 : ℚ) + 0 / 10 ^ (0 : ℕ)) from rfl]
        norm_num
  · rw [parseEngagementCount_of_some "1BM" (floatValOfParts (['1'], []))
      (by decide) rfl]
    rw [if_neg (by decide), if_pos (by decide)]
    refine jsMathRound_eq _ 1000000 ?_ ?_ <;>
      · rw [show floatValOfParts (['1'], []) =
            ((1 : ℚ) + 0 / 10 ^ (0 : ℕ)) from rfl]
        norm_num
  · intro hne hK hq
    rw [parseEngagementCount_of_some s q hne hq, if_pos hK]
  · intro hne hK hM hq
    rw [parseEngagementCount_of_some s q hne hq,
      if_neg (by rw [hK]; simp), if_pos hM]
  · intro hne hK hM hB hq
    rw [parseEngagementCount_of_some s q hne hq,
      if_neg (by rw [hK]; simp), if_neg (by rw [hM]; simp), if_pos hB]

/-- Witness for C10: the cleaned form of the input `"K25"` carries a
leading K, and the parser still applies the 1e3 multiplier. -/
theorem claim10_multiplier_anywhere_witness :
    parseEngagementCount "K25" =
      jsMathRound (floatValOfParts (['2', '5'], []) * 1000) := by
  have h := claim10_multiplier_anywhere "K25" (floatValOfParts (['2', '5'], []))
  exact h.2.2.2.1 (by decide) (by decide) rfl

/-- Claim C4.  A payload missing its videos sequence or its images
sequence makes `importJsonData` — in merge mode and in replace mode
alike — fail atomically: it surfaces the source's descriptive rejection
message and returns the analyzer state exactly as it was, caches and
session counters included (the validation throws before any mutation). -/
theorem claim4_malformed_import_atomic (replace : Bool) (clock : ℕ → ℕ)
    (payload : ImportPayload) (st : AnalyzerState)
    (h : payload.videos = none ∨ payload.images = none) :
    importJsonData replace clock payload st =
      (st, Except.error "Invalid JSON format. Missing videos or images data.") := by
  obtain ⟨pv, pi, ps⟩ := payload
  rcases h with h | h
  · simp only at h
    subst h
    rfl
  · simp only at h
    subst h
    cases pv <;> rfl

/-- Witness for C4: a concrete payload with the videos sequence missing
is rejected and the state returned unchanged. -/
theorem claim4_malformed_import_atomic_witness :
    importJsonData false (fun _ => 0)
        { videos := none, images := some [], stats := none }
        sampleRunningState =
      (sampleRunningState,
        Except.error "Invalid JSON format. Missing videos or images data.") :=
  claim4_malformed_import_atomic false (fun _ => 0)
    { videos := none, images := some [], stats := none }
    sampleRunningState (Or.inl rfl)

/-- Counterexample to claim C3 as stated.  Two records with different
ids but the same url are both presented through the Merge-mode import
path (`importJsonData` with `replace = false`), which deduplicates by id
only: both end up present in the cache, so "at most one of them is
present" fails for that insertion path. -/
theorem claim3_counterexample_merge_import_url_dup :
    sampleRecA.id ≠ sampleRecB.id ∧
    sampleRecA.url = sampleRecB.url ∧
    mapHas (importJsonData false (fun _ => 0)
        { videos := some [sampleRecA, sampleRecB], images := some [],
          stats := none }
        emptyAnalyzerState).1.videoCache sampleRecA.id = true ∧
    mapHas (importJsonData false (fun _ => 0)
        { videos := some [sampleRecA, sampleRecB], images := some [],
          stats := none }
        emptyAnalyzerState).1.videoCache sampleRecB.id = true := by
  refine ⟨by decide, by decide, ?_, ?_⟩ <;> decide

/-- Claim C3 as amended.  For records `r1 ≠ r2` with equal url but
different ids, the extraction-time insertion path does guarantee that at
most one of the two is present after both have been presented, starting
from any cache holding neither id; the Merge-mode import path checks
only ids and offers no such guarantee (see the counterexample). -/
theorem claim3_url_dedup_extraction_path (m : CacheMap) (r1 r2 : MediaRec)
    (hid : r1.id ≠ r2.id) (hurl : r1.url = r2.url)
    (h1 : mapHas m r1.id = false) (h2 : mapHas m r2.id = false) :
    mapHas (insertAllRecords m [r1, r2]) r1.id = false ∨
    mapHas (insertAllRecords m [r1, r2]) r2.id = false := by
  have hall : insertAllRecords m [r1, r2] =
      (cacheDedupInsert (cacheDedupInsert m r1).1 r2).1 := rfl
  by_cases hd1 : isDuplicate m r1 = true
  · rw [hall, cacheDedupInsert_of_dup m r1 hd1]
    by_cases hd2 : isDuplicate m r2 = true
    · rw [cacheDedupInsert_of_dup m r2 hd2]
      exact Or.inl h1
    · rw [cacheDedupInsert_of_fresh m r2 (by simpa using hd2)]
      refine Or.inl ?_
      rw [mapHas_append_single, h1]
      simp [beq_iff_eq]
      exact fun hh => hid hh.symm
  · have hc1 : (cacheDedupInsert m r1).1 = m ++ [(r1.id, r1)] := by
      rw [cacheDedupInsert_of_fresh m r1 (by simpa using hd1)]
    have hdup2 : isDuplicate (m ++ [(r1.id, r1)]) r2 = true := by
      have hurl2 : (mapValues (m ++ [(r1.id, r1)])).any
          (fun v => v.url == r2.url) = true := by
        rw [mapValues, List.map_append, List.any_append]
        refine Bool.or_eq_true_iff.mpr (Or.inr ?_)
        simp [hurl]
      rw [isDuplicate, hurl2]
      simp
    rw [hall, hc1, cacheDedupInsert_of_dup _ r2 hdup2]
    refine Or.inr ?_
    rw [mapHas_append_single, h2]
    simp [beq_iff_eq]
    exact hid

/-- Witness for the amended C3: inserting the two url-equal sample
records through the extraction path leaves at most one of them cached. -/
theorem claim3_url_dedup_extraction_path_witness :
    mapHas (insertAllRecords [] [sampleRecA, sampleRecB]) sampleRecA.id
        = false ∨
    mapHas (insertAllRecords [] [sampleRecA, sampleRecB]) sampleRecB.id
        = false :=
  claim3_url_dedup_extraction_path [] sampleRecA sampleRecB (by decide)
    (by decide) (by decide) (by decide)

lemma mapHas_append (m : CacheMap) (k0 : String) (v : MediaRec)
    (k : String) :
    mapHas (m ++ [(k0, v)]) k = (mapHas m k || (k0 == k)) := by
  simp [mapHas, List.any_append]

lemma mapHas_map_replace (m : CacheMap) (k0 k : String) (v : MediaRec) :
    mapHas (m.map (fun p => if p.1 == k0 then (k0, v) else p)) k =
      mapHas m k := by
  induction m with
  | nil => rfl
  | cons p t ih =>
    simp only [List.map_cons, mapHas, List.any_cons] at ih ⊢
    by_cases h : (p.1 == k0) = true
    · have he : p.1 = k0 := beq_iff_eq.mp h
      rw [if_pos h]
      simp only [he, ih]
    · rw [if_neg h]
      simp only [ih]

lemma mapHas_mapSet (m : CacheMap) (k0 : String) (v : MediaRec)
    (k : String) :
    mapHas (mapSet m k0 v) k = (mapHas m k || (k0 == k)) := by
  rw [mapSet]
  by_cases h : mapHas m k0 = true
  · rw [if_pos h, mapHas_map_replace]
    by_cases hk : k0 = k
    · subst hk
      rw [h]
      simp
    · have hb : (k0 == k) = false := by
        simp [beq_iff_eq]
        exact hk
      rw [hb]
      simp
  · rw [if_neg h, mapHas_append]

lemma mapHas_setAll (rs : List MediaRec) :
    ∀ (cache : CacheMap) (k : String),
      mapHas (setAll cache rs) k =
        (mapHas cache k || rs.any (fun r => r.id == k)) := by
  induction rs with
  | nil => intro cache k; simp [setAll]
  | cons r rs ih =>
    intro cache k
    rw [setAll, List.foldl_cons]
    rw [show rs.foldl (fun c r => mapSet c r.id r) (mapSet cache r.id r) =
        setAll (mapSet cache r.id r) rs from rfl]
    rw [ih, mapHas_mapSet]
    simp [Bool.or_assoc]

lemma keyInv_mapSet (m : CacheMap) (v : MediaRec) (h : keyInv m) :
    keyInv (mapSet m v.id v) := by
  rw [mapSet]
  by_cases hh : mapHas m v.id = true
  · rw [if_pos hh]
    intro p hp
    rcases List.mem_map.mp hp with ⟨q, hq, hfq⟩
    by_cases hq1 : (q.1 == v.id) = true
    · rw [if_pos hq1] at hfq
      rw [← hfq]
    · rw [if_neg hq1] at hfq
      rw [← hfq]
      exact h q hq
  · rw [if_neg hh]
    intro p hp
    rcases List.mem_append.mp hp with h1 | h1
    · exact h p h1
    · simp at h1
      rw [h1]

lemma keyInv_setAll (rs : List MediaRec) :
    ∀ (cache : CacheMap), keyInv cache → keyInv (setAll cache rs) := by
  induction rs with
  | nil => intro cache h; exact h
  | cons r rs ih =>
    intro cache h
    rw [setAll, List.foldl_cons]
    exact ih (mapSet cache r.id r) (keyInv_mapSet cache r h)

lemma mem_ids_values_iff (m : CacheMap) (h : keyInv m) (x : String) :
    x ∈ (mapValues m).map (fun r => r.id) ↔ mapHas m x = true := by
  rw [mapValues, List.map_map]
  constructor
  · intro hx
    rcases List.mem_map.mp hx with ⟨p, hp, hpx⟩
    rw [mapHas, List.any_eq_true]
    refine ⟨p, hp, ?_⟩
    rw [beq_iff_eq, ← h p hp]
    exact hpx
  · intro hx
    rw [mapHas, List.any_eq_true] at hx
    rcases hx with ⟨p, hp, hpx⟩
    refine List.mem_map.mpr ⟨p, hp, ?_⟩
    show p.2.id = x
    rw [h p hp, beq_iff_eq.mp hpx]

lemma importRecords_replace_spec (clock : ℕ → ℕ) (rs : List MediaRec) :
    ∀ (cache : CacheMap) (a s i : ℕ),
      (rs.foldl (importRecordStep true clock) (cache, a, s, i)).1 =
        setAll cache (assignRecordIds clock i rs).1 ∧
      (rs.foldl (importRecordStep true clock) (cache, a, s, i)).2.2.2 =
        (assignRecordIds clock i rs).2 := by
  induction rs with
  | nil => intro cache a s i; exact ⟨rfl, rfl⟩
  | cons r rs ih =>
    intro cache a s i
    have hstep : importRecordStep true clock (cache, a, s, i) r =
        (mapSet cache (assignId clock i r).1.id (assignId clock i r).1,
          a + 1, s, (assignId clock i r).2) := by
      simp [importRecordStep]
    rw [List.foldl_cons, hstep]
    have h := ih
      (mapSet cache (assignId clock i r).1.id (assignId clock i r).1)
      (a + 1) s (assignId clock i r).2
    exact ⟨h.1, h.2⟩

lemma mem_ids_setAll_nil (rs : List MediaRec) (x : String) :
    x ∈ (mapValues (setAll [] rs)).map (fun r => r.id) ↔
      x ∈ rs.map (fun r => r.id) := by
  rw [mem_ids_values_iff _ (keyInv_setAll rs [] (by intro p hp; cases hp)),
    mapHas_setAll]
  simp [List.any_eq_true, List.mem_map, beq_iff_eq, mapHas]

lemma applyImportStats_videoCache (replace : Bool) (ps : Option ImportStats)
    (st : AnalyzerState) :
    (applyImportStats replace ps st).videoCache = st.videoCache := by
  cases ps with
  | none => rfl
  | some s => cases replace <;> rfl

lemma applyImportStats_imageCache (replace : Bool) (ps : Option ImportStats)
    (st : AnalyzerState) :
    (applyImportStats replace ps st).imageCache = st.imageCache := by
  cases ps with
  | none => rfl
  | some s => cases replace <;> rfl

lemma importJsonOk_replace_videoCache (clock : ℕ → ℕ)
    (vs is : List MediaRec) (ps : Option ImportStats) (st : AnalyzerState) :
    (importJsonOk true clock vs is ps st).1.videoCache =
      setAll [] (assignRecordIds clock 0 vs).1 := by
  rw [importJsonOk]
  rw [applyImportStats_videoCache]
  exact (importRecords_replace_spec clock vs [] 0 0 0).1

lemma importJsonOk_replace_imageCache (clock : ℕ → ℕ)
    (vs is : List MediaRec) (ps : Option ImportStats) (st : AnalyzerState) :
    (importJsonOk true clock vs is ps st).1.imageCache =
      setAll []
        (assignRecordIds clock (assignRecordIds clock 0 vs).2 is).1 := by
  rw [importJsonOk]
  rw [applyImportStats_imageCache]
  have hidx := (importRecords_replace_spec clock vs [] 0 0 0).2
  rw [show (importRecords true clock
      (clearIfReplace true st).videoCache 0 vs).2.2.2 =
        (vs.foldl (importRecordStep true clock) ([], 0, 0, 0)).2.2.2 from rfl,
    hidx]
  exact (importRecords_replace_spec clock is [] 0 0 _).1

/-- Claim C6.  A Replace-mode import of a payload carrying both
sequences succeeds, and a subsequent export yields snapshots whose
video and image id-sets are exactly the id-sets of the payload's
sequences after import-time id assignment (records lacking an id get
one from the identity hasher); the caches' prior contents — `st` is
arbitrary on the left and absent on the right — have no effect. -/
theorem claim6_replace_import_export_roundtrip (clock : ℕ → ℕ)
    (payload : ImportPayload) (st : AnalyzerState) (vs is : List MediaRec)
    (hv : payload.videos = some vs) (hi : payload.images = some is) :
    (∃ r, (importJsonData true clock payload st).2 = Except.ok r) ∧
    (∀ x, x ∈ (exportDataAsJson
          (importJsonData true clock payload st).1).videos.map
            (fun r => r.id) ↔
        x ∈ (assignRecordIds clock 0 vs).1.map (fun r => r.id)) ∧
    (∀ x, x ∈ (exportDataAsJson
          (importJsonData true clock payload st).1).images.map
            (fun r => r.id) ↔
        x ∈ (assignRecordIds clock (assignRecordIds clock 0 vs).2
              is).1.map (fun r => r.id)) := by
  obtain ⟨pv, pi, ps⟩ := payload
  simp only at hv hi
  subst hv
  subst hi
  have hrw : importJsonData true clock ⟨some vs, some is, ps⟩ st =
      importJsonOk true clock vs is ps st := rfl
  rw [hrw]
  refine ⟨⟨_, rfl⟩, ?_, ?_⟩
  · intro x
    show x ∈ (mapValues
        (importJsonOk true clock vs is ps st).1.videoCache).map
          (fun r => r.id) ↔ _
    rw [importJsonOk_replace_videoCache]
    exact mem_ids_setAll_nil _ x
  · intro x
    show x ∈ (mapValues
        (importJsonOk true clock vs is ps st).1.imageCache).map
          (fun r => r.id) ↔ _
    rw [importJsonOk_replace_imageCache]
    exact mem_ids_setAll_nil _ x

/-- Witness for C6 at a concrete payload (one video lacking an id, one
image) imported in Replace mode over a non-empty prior state. -/
theorem claim6_replace_import_export_roundtrip_witness :
    ∃ r, (importJsonData true (fun _ => 7)
        { videos := some [{ sampleRecA with id := "" }],
          images := some [sampleRecB], stats := none }
        sampleRunningState).2 = Except.ok r :=
  (claim6_replace_import_export_roundtrip (fun _ => 7)
    { videos := some [{ sampleRecA with id := "" }],
      images := some [sampleRecB], stats := none }
    sampleRunningState [{ sampleRecA with id := "" }] [sampleRecB]
    rfl rfl).1

lemma detectMediaLoop_foldl (cs : List ContainerOutcome) :
    ∀ (a b : ℕ) (e : ErrorCounters),
      cs.foldl
        (fun acc c =>
          match c with
          | ContainerOutcome.ok ni nv => (acc.1 + nv, acc.2.1 + ni, acc.2.2)
          | ContainerOutcome.throws _ => acc)
        (a, b, e) =
      (a + (cs.map okVideos).sum, b + (cs.map okImages).sum, e) := by
  induction cs with
  | nil => intro a b e; simp
  | cons c cs ih =>
    intro a b e
    cases c with
    | ok ni nv =>
      rw [List.foldl_cons]
      show cs.foldl _ (a + nv, b + ni, e) = _
      rw [ih]
      simp [okVideos, okImages]
      constructor
      · omega
      · omega
    | throws m =>
      rw [List.foldl_cons]
      show cs.foldl _ (a, b, e) = _
      rw [ih]
      simp [okVideos, okImages]

/-- Counterexample to claim C8 as stated.  A candidate that throws
during extraction is isolated — the pass still returns aggregate counts
— but no error counter is incremented: the constructor's error-tracking
object has no `detection` field at all, and the catch block only logs a
warning, so the counters come out exactly as they went in. -/
theorem claim8_counterexample_no_detection_counter :
    detectMediaLoop ⟨1, 2, 3, 4⟩
        [ContainerOutcome.ok 2 1, ContainerOutcome.throws "boom"] =
      (1, 2, ⟨1, 2, 3, 4⟩) := by
  decide

/-- Claim C8 as amended.  A single `detectMedia` pass never propagates a
per-container exception: every throwing container is skipped (removing
it from the list leaves the pass result unchanged), the pass returns the
aggregate new-video/new-image counts of the successful containers, and
the error counters are returned unchanged — the failure is only logged,
no detection counter exists or is incremented. -/
theorem claim8_detection_errors_isolated (errors : ErrorCounters)
    (cs as bs : List ContainerOutcome) (m : String) :
    detectMediaLoop errors cs =
      ((cs.map okVideos).sum, (cs.map okImages).sum, errors) ∧
    detectMediaLoop errors (as ++ ContainerOutcome.throws m :: bs) =
      detectMediaLoop errors (as ++ bs) := by
  constructor
  · rw [detectMediaLoop, detectMediaLoop_foldl]
    simp
  · rw [detectMediaLoop, detectMediaLoop, detectMediaLoop_foldl,
      detectMediaLoop_foldl]
    simp [okVideos, okImages]

end BMI
